import Mathlib

/-!
Shallow embedding of the reegis_tools repository (src/reegis_tools/coastdat.py,
tools.py, inhabitants.py): the spatial aggregation of coastdat2 weather and
feed-in time series by region, the scalar hydro and geothermal estimators, and
the download and skip-if-exists helpers.

Machine floats of the source are modelled by rationals.  The non-finite
results of a float division by zero (NaN or infinity, as produced by
numpy/pandas without raising) are modelled by the value none of Option.
File contents are modelled as optional values (none = the file is absent).
-/

/-- Hourly time series, values as rationals (the source uses machine floats
inside pandas Series). -/
abbrev Series := List ℚ

/-- Leap year test, as calendar.isleap of the Python standard library. -/
def isLeap (y : Nat) : Bool := (y % 4 == 0 && y % 100 != 0) || y % 400 == 0

/-- Hours of a year: 8784 in a leap year, 8760 otherwise.  This is both the
h_max constant of get_average_wind_speed and the length of the hourly
pd.date_range over one year used by the hydro and geothermal estimators
(the two daylight-saving shifts of the Europe/Berlin zone cancel within one
calendar year). -/
def hoursInYear (y : Nat) : Nat := if isLeap y then 8784 else 8760

/-- An HTTP response: status code and binary payload (requests.get). -/
structure HttpResponse where
  status : Nat
  content : List Nat

/-- Model of tools.download_file.  The file system is the optional current
content of the target file; the result is the new content together with the
return code r.  The source writes the response body to the file whenever the
file is absent or overwrite is set, regardless of the HTTP status code, and
returns the status code; otherwise it returns 1 and leaves the file alone. -/
def download_file (fs : Option (List Nat)) (resp : HttpResponse)
    (overwrite : Bool) : Option (List Nat) × Nat :=
  if fs.isNone || overwrite then (some resp.content, resp.status) else (fs, 1)

/-- Model of the url-found branch of coastdat.get_coastdat_data: it first
calls tools.download_file with overwrite=False, then performs its own
streaming request and writes the streamed payload over the file only when
the status code is 200. -/
def get_coastdat_data (fs : Option (List Nat)) (resp : HttpResponse) :
    Option (List Nat) :=
  let fs1 := (download_file fs resp false).1
  if resp.status = 200 then some resp.content else fs1

/-- Truncation used in get_average_wind_speed: surplus = h_max - len(ws) and
ws = ws.ix[:surplus] when surplus < 0, which keeps the first h_max points of
a too-long series for the year in question. -/
def truncateToYear (year : Nat) (ws : Series) : Series :=
  if hoursInYear year < ws.length then ws.take (hoursInYear year) else ws

/-- Average wind speed of one grid key over all years in
get_average_wind_speed: the per-year series are truncated, concatenated and
averaged (the pandas mean of an empty series is NaN, modelled as none). -/
def avgWindSpeedFor (store : Nat → Nat → Series) (years : List Nat)
    (key : Nat) : Option ℚ :=
  let ws := (years.map (fun y => truncateToYear y (store y key))).flatten
  if ws.length = 0 then none else some (ws.sum / (ws.length : ℚ))

/-- Model of get_average_wind_speed: when the output file exists and
overwrite is not set the whole computation is skipped and the file is kept;
otherwise the per-key averages are computed and written to the file. -/
def get_average_wind_speed (existingOut : Option (List (Nat × Option ℚ)))
    (overwrite : Bool) (years : List Nat) (store : Nat → Nat → Series)
    (keys : List Nat) : Option (List (Nat × Option ℚ)) :=
  if existingOut.isNone || overwrite then
    some (keys.map (fun k => (k, avgWindSpeedFor store years k)))
  else existingOut

/-- Model of inhabitants.get_ew_shp_file.  The source raises an
AttributeError for years below 2011 as its very first statement, before any
download or file system effect; afterwards it either finds the shapefile
already present (no effect) or downloads, extracts, copies and cleans up.
The effects performed after the guard are abstracted as a trace of effect
names, in source order. -/
def get_ew_shp_file (year : Int) (shpExists : Bool) :
    Except String (List String) :=
  if year < 2011 then
    Except.error "AttributeError: Years < 2011 are not allowed in this function."
  else if shpExists then Except.ok []
  else Except.ok ["download_zip", "extract_zip", "copy_shapefiles", "remove_tmp"]

/-- One row of the power plant table pp passed to
aggregate_by_region_coastdat_feedin: MultiIndex (category, region,
coastdat id) with the capacity column of the requested year. -/
structure PPRow where
  category : String
  region : String
  coastdatId : Nat
  capacity : ℚ

/-- The rows selected by pp.loc[(category, region)]. -/
def ppRows (pp : List PPRow) (cat reg : String) : List PPRow :=
  pp.filter (fun r => r.category == cat && r.region == reg)

/-- The coastdat ids pp.loc[(category, region)].index; the KeyError of an
absent (category, region) pair is caught in the source and yields the empty
id list, which the empty filter models. -/
def ppIds (pp : List PPRow) (cat reg : String) : List Nat :=
  (ppRows pp cat reg).map PPRow.coastdatId

/-- Capacity of the first row of a selection, 0 when no row matches. -/
def headCap : List PPRow → ℚ
  | [] => 0
  | r :: _ => r.capacity

/-- The scalar float(pp.loc[(category, region, coastdat id), capacity])
(with a unique MultiIndex this is the single matching row). -/
def capacityOf (pp : List PPRow) (cat reg : String) (cid : Nat) : ℚ :=
  headCap ((ppRows pp cat reg).filter (fun r => r.coastdatId == cid))

/-- The divisor float(pp.loc[(category, region), capacity].sum()). -/
def totalCap (pp : List PPRow) (cat reg : String) : ℚ :=
  ((ppRows pp cat reg).map PPRow.capacity).sum

/-- pandas DataFrame.sum(axis=1) for a frame with idxLen rows whose columns
are the given series: an entry missing from a shorter column is NaN and is
skipped by the sum, hence counts as 0; an all-NaN row sums to 0. -/
def pandasSumAxis1 (idxLen : Nat) (cols : List Series) : Series :=
  (List.range idxLen).map (fun i => (cols.map (fun s => s.getD i 0)).sum)

/-- pandas Series.divide by a float scalar: a division by zero yields a
non-finite value (NaN or infinity) without raising, modelled as none. -/
def pandasDiv (s : Series) (d : ℚ) : List (Option ℚ) :=
  s.map (fun v => if d = 0 then none else some (v / d))

/-- Model of the per-region body of aggregate_by_region_coastdat_feedin for
one set and one subset column: each per-point normalised series is cut to
its first 8760 points (the source always slices [:8760], for leap years
too), multiplied with the installed capacity of the point, the columns are
summed over the index of length idxLen (the index of the reference series
of the store, 8784 rows in a leap year) and divided by the total capacity
of the region; a region without power plant rows is skipped. -/
def aggregateRegionCol (pwr : Nat → Series) (idxLen : Nat) (pp : List PPRow)
    (cat reg : String) : Option (List (Option ℚ)) :=
  let ids := ppIds pp cat reg
  if 0 < ids.length then
    some (pandasDiv
      (pandasSumAxis1 idxLen (ids.map (fun cid =>
        ((pwr cid).take 8760).map (fun v => v * capacityOf pp cat reg cid))))
      (totalCap pp cat reg))
  else none

/-- The region loop of aggregate_by_region_coastdat_feedin: one output
column per region that has at least one power plant row. -/
def aggregateTable (pwr : Nat → Series) (idxLen : Nat) (pp : List PPRow)
    (cat : String) (regions : List String) :
    List (String × List (Option ℚ)) :=
  regions.filterMap (fun reg =>
    (aggregateRegionCol pwr idxLen pp cat reg).map (fun out => (reg, out)))

/-- Write behaviour of aggregate_by_region_coastdat_feedin: the source never
tests whether outfile already exists; it recomputes the table and calls
feed_in.to_csv(outfile) unconditionally, so any previous file content is
replaced by the freshly computed table. -/
def runAggregateStep (_outfile : Option (List (String × List (Option ℚ))))
    (pwr : Nat → Series) (idxLen : Nat) (pp : List PPRow) (cat : String)
    (regions : List String) : Option (List (String × List (Option ℚ))) :=
  some (aggregateTable pwr idxLen pp cat regions)

/-- The fix loop of spatial_average_weather, in iteration order over the
regions without any naturally assigned grid point: for each such region the
first grid polygon intersecting the representative point of the region is
chosen; when none intersects, the indexing [0] into the empty selection in
the source raises an IndexError, modelled as Except.error. -/
def buildFix (gridPolys : List Nat) (inter : Nat → String → Bool) :
    List String → Except String (List (String × Nat))
  | [] => Except.ok []
  | r :: rs =>
    match gridPolys.filter (fun g => inter g r) with
    | [] => Except.error ("IndexError: no grid polygon intersects " ++ r)
    | g :: _ =>
      match buildFix gridPolys inter rs with
      | Except.error e => Except.error e
      | Except.ok ps => Except.ok ((r, g) :: ps)

/-- pandas tmp.sum(1) for a frame whose columns are the given equally long
series: the row count comes from the first column. -/
def dfSum1 (ss : List Series) : Series :=
  pandasSumAxis1 (ss.headD []).length ss

/-- One turn of the region loop of spatial_average_weather: a region with
no naturally assigned grid point reads the series of its fallback point
unweighted; otherwise the column sum of the member series is divided by
number_of_sets, the count of member points.  The none branch of the lookup
is the KeyError of a missing fix entry; it is unreachable because the fix
table covers exactly the regions without natural points. -/
def regionRow (natural : String → List Nat) (fixPairs : List (String × Nat))
    (weather : Nat → Series) (r : String) : String × Series :=
  let cd := natural r
  if cd.length < 1 then
    match fixPairs.find? (fun p => p.1 == r) with
    | some p => (r, weather p.2)
    | none => (r, [])
  else (r, (dfSum1 (cd.map weather)).map (fun v => v / (cd.length : ℚ)))

/-- Model of spatial_average_weather.  The spatial join of grid centroids
to regions lives in the geometries module outside this repository slice and
is abstracted as the function natural from region identifier to its list of
naturally assigned grid ids; the fix table is then built for the regions
with no natural point, and the region loop produces one series per
region. -/
def spatial_average_weather (regions : List String)
    (natural : String → List Nat) (gridPolys : List Nat)
    (inter : Nat → String → Bool) (weather : Nat → Series) :
    Except String (List (String × Series)) :=
  match buildFix gridPolys inter (regions.filter (fun r => (natural r).isEmpty)) with
  | Except.error e => Except.error e
  | Except.ok fixPairs => Except.ok (regions.map (regionRow natural fixPairs weather))

/-- One row of the power plant frame used by aggregate_by_region_hydro,
indexed by category with a capacity column. -/
structure CapRow where
  category : String
  capacity : ℚ

/-- The scalar pp.loc[Hydro, capacity].sum() of aggregate_by_region_hydro. -/
def hydroCapacitySum (pp : List CapRow) : ℚ :=
  ((pp.filter (fun r => r.category == "Hydro")).map CapRow.capacity).sum

/-- The hourly pd.date_range index over one year in the Europe/Berlin zone,
abstracted to hour numbers; its length is hoursInYear because the two
daylight-saving shifts cancel within one calendar year. -/
def dateRangeHours (year : Nat) : List Nat :=
  List.range (hoursInYear year)

/-- Model of aggregate_by_region_hydro: the full load hours are the annual
energy of the bmwi table divided by the installed hydro capacity times
1000, and every hour of every region column receives full_load_hours
divided by len(feed_in), the number of hours of the year. -/
def aggregate_by_region_hydro (pp : List CapRow) (hydroEnergy : Nat → ℚ)
    (regions : List String) (year : Nat) : List (String × Series) :=
  let full_load_hours := hydroEnergy year / hydroCapacitySum pp * 1000
  let idx := dateRangeHours year
  regions.map (fun r => (r, idx.map (fun _ => full_load_hours / (idx.length : ℚ))))

/-- Model of aggregate_by_region_geothermal: the full load hours come from
the configuration and every hour of every region column receives
full_load_hours divided by len(feed_in). -/
def aggregate_by_region_geothermal (geothermal_full_load_hours : ℚ)
    (regions : List String) (year : Nat) : List (String × Series) :=
  let idx := dateRangeHours year
  regions.map (fun r =>
    (r, idx.map (fun _ => geothermal_full_load_hours / (idx.length : ℚ))))

/-- Power plant table with one grid point of capacity zero, for C3. -/
def ppZeroCap : List PPRow := [⟨"w", "r", 1, 0⟩]

/-- Power plant table with one grid point of capacity two, for C4. -/
def ppLeap : List PPRow := [⟨"w", "r", 1, 2⟩]

/-- Power plant table with two grid points of capacities 2 and 3, for the
C1 witness scenario. -/
def ppW : List PPRow := [⟨"w", "r", 1, 2⟩, ⟨"w", "r", 2, 3⟩]

/-- Per-point series for the C1 witness: point 1 is constantly 1, point 2
constantly 2, over three hours. -/
def pwrW : Nat → Series := fun c => if c = 1 then [1, 1, 1] else [2, 2, 2]

/-- Power plant table with two grid points of equal capacity 2, for the C6
witness. -/
def ppEq : List PPRow := [⟨"w", "r", 1, 2⟩, ⟨"w", "r", 2, 2⟩]

/-- Per-point series for the C6 witness: one hour, values 1 and 3. -/
def pwrEq : Nat → Series := fun c => if c = 1 then [1] else [3]

/-- Natural assignment for the C2 witness: region a holds grid point 7,
every other region holds nothing. -/
def naturalW : String → List Nat := fun r => if r == "a" then [7] else []

/-- Intersection test for the C2 witness: every grid polygon intersects the
representative point of region b and of no other region. -/
def interW : Nat → String → Bool := fun _ r => r == "b"

/-- Weather store for the C2 witness: point 3 carries the one-hour series
[30], every other point carries [99]. -/
def weatherW : Nat → Series := fun n => if n = 3 then [30] else [99]

/-- The output rows of the C2 witness run. -/
def rowsW : List (String × Series) := [("a", [99]), ("b", [30])]

/-- Per-point store for the leap-year counterexamples of C1 and C6: every
grid point carries a constant unit series over the 8784-hour index of a
leap year. -/
def pwrLeap : Nat → Series := fun _ => List.replicate 8784 1

/-- Natural assignment for the C5 witness: region a holds exactly grid
point 5. -/
def naturalC5 : String → List Nat := fun r => if r == "a" then [5] else []

/-- Weather store for the C5 witness: every point carries the one-hour
series [3]. -/
def weatherC5 : Nat → Series := fun _ => [3]

/-- C10: for every year strictly below 2011 the inhabitants shapefile
request raises an AttributeError before any download or file system side
effect (the error carries an empty effect trace by construction); for 2011
and later this guard raises no error. -/
theorem C10_year_guard (year : Int) (shpExists : Bool) :
    (year < 2011 → get_ew_shp_file year shpExists =
      Except.error "AttributeError: Years < 2011 are not allowed in this function.") ∧
    (2011 ≤ year → ∃ l, get_ew_shp_file year shpExists = Except.ok l) := by
  constructor
  · intro h
    simp [get_ew_shp_file, h]
  · intro h
    have h2 : ¬ year < 2011 := not_lt.mpr h
    cases shpExists
    · exact ⟨["download_zip", "extract_zip", "copy_shapefiles", "remove_tmp"],
        by simp [get_ew_shp_file, h2]⟩
    · exact ⟨[], by simp [get_ew_shp_file, h2]⟩

/-- Witness for C10 at the concrete years 2010 and 2011. -/
theorem C10_year_guard_witness :
    get_ew_shp_file 2010 true =
      Except.error "AttributeError: Years < 2011 are not allowed in this function." ∧
    ∃ l, get_ew_shp_file 2011 true = Except.ok l :=
  ⟨(C10_year_guard 2010 true).1 (by decide), (C10_year_guard 2011 true).2 (by decide)⟩

/-- C8 counterexample: with the target file absent, a request answered with
status 404 still gets its body written to the file by tools.download_file,
refuting that a non-200 response writes no payload. -/
theorem C8_counterexample_non200_writes :
    (404 : Nat) ≠ 200 ∧
      download_file none ⟨404, [7]⟩ false = (some [7], 404) := by
  constructor
  · decide
  · rfl

/-- C8 amended: only the streaming write inside get_coastdat_data is guarded
by status 200; tools.download_file writes the response body to an absent
target file regardless of the status code and returns that status code to
its caller, and leaves an existing file untouched when overwrite is unset
(there is no retry in either function). -/
theorem C8_amended_download_guard (fs : Option (List Nat))
    (resp : HttpResponse) :
    (resp.status ≠ 200 → get_coastdat_data fs resp = (download_file fs resp false).1) ∧
    (resp.status = 200 → get_coastdat_data fs resp = some resp.content) ∧
    download_file none resp false = (some resp.content, resp.status) ∧
    (∀ c, download_file (some c) resp false = (some c, 1)) := by
  refine ⟨fun h => ?_, fun h => ?_, rfl, fun c => rfl⟩
  · simp [get_coastdat_data, h]
  · simp [get_coastdat_data, h]

/-- Witness for C8 amended at a 404 and a 200 response against an absent
file. -/
theorem C8_amended_download_guard_witness :
    get_coastdat_data none ⟨404, [7]⟩ = some [7] ∧
      get_coastdat_data none ⟨200, [9]⟩ = some [9] := by
  have h1 := (C8_amended_download_guard none ⟨404, [7]⟩).1 (by decide)
  have h2 := (C8_amended_download_guard none ⟨200, [9]⟩).2.1 (by decide)
  exact ⟨by rw [h1]; rfl, h2⟩

/-- C9 counterexample: the aggregation step is not a no-op when its target
file exists: an existing outfile with different content is replaced by the
recomputed (here empty) table instead of being kept. -/
theorem C9_counterexample_no_skip :
    runAggregateStep (some [("z", [some 1])]) (fun _ => []) 0 [] "w" []
      ≠ some [("z", [some 1])] := by
  decide

/-- C9 amended: with overwrite=False, download_file and
get_average_wind_speed skip their work when the target file exists and keep
it byte-identical; aggregate_by_region_coastdat_feedin has no existence
check and always recomputes and rewrites its outfile, and with identical
inputs the rewritten content is identical to the first run. -/
theorem C9_amended_idempotence (c : List Nat) (resp : HttpResponse)
    (out : List (Nat × Option ℚ)) (years : List Nat)
    (store : Nat → Nat → Series) (keys : List Nat)
    (tblOld : List (String × List (Option ℚ))) (pwr : Nat → Series)
    (idxLen : Nat) (pp : List PPRow) (cat : String)
    (regions : List String) :
    download_file (some c) resp false = (some c, 1) ∧
    get_average_wind_speed (some out) false years store keys = some out ∧
    runAggregateStep (some tblOld) pwr idxLen pp cat regions =
      some (aggregateTable pwr idxLen pp cat regions) ∧
    runAggregateStep (runAggregateStep (some tblOld) pwr idxLen pp cat regions)
        pwr idxLen pp cat regions =
      some (aggregateTable pwr idxLen pp cat regions) :=
  ⟨rfl, rfl, rfl, rfl⟩

/-- The length of a pandas axis-1 sum is the index length. -/
theorem pandasSumAxis1_length (n : Nat) (cols : List Series) :
    (pandasSumAxis1 n cols).length = n := by
  simp [pandasSumAxis1]

/-- Entry i of a pandas axis-1 sum, for i inside the index. -/
theorem pandasSumAxis1_getD (n : Nat) (cols : List Series) (i : Nat)
    (hi : i < n) :
    (pandasSumAxis1 n cols).getD i 0 = (cols.map (fun s => s.getD i 0)).sum := by
  have hlen : i < (pandasSumAxis1 n cols).length := by
    simpa [pandasSumAxis1_length] using hi
  rw [List.getD_eq_getElem _ _ hlen]
  simp [pandasSumAxis1]

/-- The length of a pandas scalar division is the series length. -/
theorem pandasDiv_length (s : Series) (d : ℚ) :
    (pandasDiv s d).length = s.length := by
  simp [pandasDiv]

/-- Entry i of a pandas scalar division by a nonzero divisor. -/
theorem pandasDiv_getD (s : Series) (d : ℚ) (i : Nat) (hi : i < s.length)
    (hd : d ≠ 0) :
    (pandasDiv s d).getD i none = some (s.getD i 0 / d) := by
  have h1 : i < (pandasDiv s d).length := by simpa [pandasDiv_length] using hi
  rw [List.getD_eq_getElem _ _ h1, List.getD_eq_getElem _ _ hi]
  simp [pandasDiv, hd]

/-- Division of a series by zero turns every entry into the non-finite
marker none. -/
theorem pandasDiv_zero (s : Series) :
    pandasDiv s 0 = List.replicate s.length none := by
  simp [pandasDiv, List.map_const']

/-- Unfolding of the aggregation body on a region with at least one power
plant row. -/
theorem aggregateRegionCol_eq (pwr : Nat → Series) (idxLen : Nat)
    (pp : List PPRow) (cat reg : String) (hne : ppIds pp cat reg ≠ []) :
    aggregateRegionCol pwr idxLen pp cat reg =
      some (pandasDiv
        (pandasSumAxis1 idxLen ((ppIds pp cat reg).map (fun cid =>
          ((pwr cid).take 8760).map (fun v => v * capacityOf pp cat reg cid))))
        (totalCap pp cat reg)) := by
  unfold aggregateRegionCol
  simp [List.length_pos.mpr hne]

/-- Entry i of a truncated and capacity-scaled member column, for an hour
inside both the 8760 window and the series. -/
theorem col_getD (s : Series) (c : ℚ) (i : Nat) (hi8 : i < 8760)
    (hil : i < s.length) :
    ((s.take 8760).map (fun v => v * c)).getD i 0 = s.getD i 0 * c := by
  have ht : i < (s.take 8760).length := by
    simp only [List.length_take]
    omega
  have hm : i < ((s.take 8760).map (fun v => v * c)).length := by
    simpa using ht
  rw [List.getD_eq_getElem _ _ hm, List.getD_eq_getElem _ _ hil]
  simp [List.getElem_take]

/-- Entry i of the aggregation output of a region: the weighted column sum
divided by the total capacity of the region, as the source computes it. -/
theorem aggregateRegionCol_getD (pwr : Nat → Series) (idxLen : Nat)
    (pp : List PPRow) (cat reg : String) (i : Nat)
    (hne : ppIds pp cat reg ≠ [])
    (hlen : ∀ cid ∈ ppIds pp cat reg, (pwr cid).length = idxLen)
    (hi : i < idxLen) (hi8 : i < 8760)
    (htot : totalCap pp cat reg ≠ 0) :
    ∃ out, aggregateRegionCol pwr idxLen pp cat reg = some out ∧
      out.getD i none = some ((((ppIds pp cat reg).map (fun cid =>
        (pwr cid).getD i 0 * capacityOf pp cat reg cid)).sum) /
        totalCap pp cat reg) := by
  refine ⟨_, aggregateRegionCol_eq pwr idxLen pp cat reg hne, ?_⟩
  rw [pandasDiv_getD _ _ _ (by simpa [pandasSumAxis1_length] using hi) htot,
    pandasSumAxis1_getD _ _ _ hi]
  congr 2
  rw [List.map_map]
  refine congrArg List.sum (List.map_congr_left ?_)
  intro cid hcid
  simpa using col_getD (pwr cid) (capacityOf pp cat reg cid) i hi8
    (by rw [hlen cid hcid]; exact hi)

/-- Summing the first-match capacities over distinct ids recovers the sum
of the capacity column. -/
theorem sum_headCap_filter (L : List PPRow)
    (hd : (L.map PPRow.coastdatId).Nodup) :
    ((L.map PPRow.coastdatId).map (fun c =>
      headCap (L.filter (fun x => x.coastdatId == c)))).sum
      = (L.map PPRow.capacity).sum := by
  induction L with
  | nil => simp
  | cons r L ih =>
    rw [List.map_cons, List.map_cons, List.sum_cons, List.map_cons,
      List.sum_cons]
    have hmem : r.coastdatId ∉ L.map PPRow.coastdatId :=
      (List.nodup_cons.mp hd).1
    have hnd : (L.map PPRow.coastdatId).Nodup := (List.nodup_cons.mp hd).2
    have hhead :
        headCap ((r :: L).filter (fun x => x.coastdatId == r.coastdatId))
          = r.capacity := by
      rw [List.filter_cons]
      simp [headCap]
    have htail : (L.map PPRow.coastdatId).map (fun c =>
        headCap ((r :: L).filter (fun x => x.coastdatId == c)))
        = (L.map PPRow.coastdatId).map (fun c =>
          headCap (L.filter (fun x => x.coastdatId == c))) := by
      refine List.map_congr_left ?_
      intro c hc
      have hne : (r.coastdatId == c) = false :=
        beq_eq_false_iff_ne.mpr (fun h => hmem (by rw [h]; exact hc))
      rw [List.filter_cons, hne]
      simp
    rw [hhead, htail, ih hnd]

/-- With pairwise distinct coastdat ids the sum of the per-id capacities
equals the total capacity divisor used by the source. -/
theorem sum_capacityOf_eq_totalCap (pp : List PPRow) (cat reg : String)
    (hd : (ppIds pp cat reg).Nodup) :
    ((ppIds pp cat reg).map (fun c => capacityOf pp cat reg c)).sum
      = totalCap pp cat reg :=
  sum_headCap_filter (ppRows pp cat reg) hd

/-- C1 amended: capacity-weighted aggregation: for every region with at
least one assigned grid point (with distinct point ids) and every hour
inside the [:8760] truncation window applied before aggregation, the
output value is the sum over the assigned points of the unit-normalised
value at that hour times the installed capacity of the point, divided by
the total installed capacity over the same set of points.  The original
claim, quantified over every hour, fails at the leap-year hours 8760-8783,
where the output is 0 regardless of the data. -/
theorem C1_capacity_weighted_formula (pwr : Nat → Series) (idxLen : Nat)
    (pp : List PPRow) (cat reg : String) (i : Nat)
    (hne : ppIds pp cat reg ≠ [])
    (hnodup : (ppIds pp cat reg).Nodup)
    (hlen : ∀ cid ∈ ppIds pp cat reg, (pwr cid).length = idxLen)
    (hi : i < idxLen) (hi8 : i < 8760)
    (htot : ((ppIds pp cat reg).map (fun c => capacityOf pp cat reg c)).sum ≠ 0) :
    ∃ out, aggregateRegionCol pwr idxLen pp cat reg = some out ∧
      out.getD i none = some ((((ppIds pp cat reg).map (fun cid =>
        (pwr cid).getD i 0 * capacityOf pp cat reg cid)).sum) /
        (((ppIds pp cat reg).map (fun c => capacityOf pp cat reg c)).sum)) := by
  have hsum := sum_capacityOf_eq_totalCap pp cat reg hnodup
  rw [hsum] at htot
  obtain ⟨out, h1, h2⟩ :=
    aggregateRegionCol_getD pwr idxLen pp cat reg i hne hlen hi hi8 htot
  refine ⟨out, h1, ?_⟩
  rw [h2, hsum]

/-- Witness for C1: capacities 2 and 3 with constant unit series 1 and 2
give (2*1 + 3*2)/5 = 8/5 = 1.6 at hour 0 of a three-hour run. -/
theorem C1_capacity_weighted_formula_witness :
    ∃ out, aggregateRegionCol pwrW 3 ppW "w" "r" = some out ∧
      out.getD 0 none = some (8 / 5) := by
  obtain ⟨out, h1, h2⟩ := C1_capacity_weighted_formula pwrW 3 ppW "w" "r" 0
    (by decide) (by decide) (by decide) (by decide) (by decide)
    (by norm_num [ppIds, ppRows, ppW, capacityOf, headCap])
  refine ⟨out, h1, ?_⟩
  rw [h2]
  norm_num [ppIds, ppRows, ppW, capacityOf, headCap, pwrW]

/-- C3: at a region whose total installed capacity is zero the source
completes without raising: the float division turns every output hour into
the non-finite value 0.0/0.0 (NaN, modelled as none) and the column is
still produced for the output file, refuting that an explicit
divide-by-zero error is raised. -/
theorem C3_zero_capacity_writes_nan :
    totalCap ppZeroCap "w" "r" = 0 ∧
      aggregateRegionCol (fun _ => [1, 1]) 2 ppZeroCap "w" "r" =
        some (List.replicate 2 none) := by
  have htot : totalCap ppZeroCap "w" "r" = 0 := by
    simp [totalCap, ppRows, ppZeroCap]
  refine ⟨htot, ?_⟩
  rw [aggregateRegionCol_eq _ 2 ppZeroCap "w" "r" (by decide), htot,
    pandasDiv_zero, pandasSumAxis1_length]

/-- On a region whose rows all carry capacity c, every member id resolves
to capacity c. -/
theorem capacityOf_const (pp : List PPRow) (cat reg : String) (c : ℚ)
    (hrows : ∀ x ∈ ppRows pp cat reg, x.capacity = c) (cid : Nat)
    (hcid : cid ∈ ppIds pp cat reg) : capacityOf pp cat reg cid = c := by
  obtain ⟨x, hx, hxid⟩ := List.mem_map.mp hcid
  have hmemf : x ∈ (ppRows pp cat reg).filter (fun y => y.coastdatId == cid) :=
    List.mem_filter.mpr ⟨hx, by simp [hxid]⟩
  unfold capacityOf
  cases hfe : (ppRows pp cat reg).filter (fun y => y.coastdatId == cid) with
  | nil =>
    rw [hfe] at hmemf
    cases hmemf
  | cons z zs =>
    have hz : z ∈ (ppRows pp cat reg).filter (fun y => y.coastdatId == cid) := by
      rw [hfe]
      exact List.mem_cons_self z zs
    have hzr : z ∈ ppRows pp cat reg := (List.mem_filter.mp hz).1
    simp only [headCap]
    exact hrows z hzr

/-- On a region whose rows all carry capacity c, the total capacity is the
row count times c. -/
theorem totalCap_const (pp : List PPRow) (cat reg : String) (c : ℚ)
    (hrows : ∀ x ∈ ppRows pp cat reg, x.capacity = c) :
    totalCap pp cat reg = ((ppRows pp cat reg).length : ℚ) * c := by
  unfold totalCap
  rw [List.map_congr_left (fun x hx => hrows x hx), List.map_const',
    List.sum_replicate, nsmul_eq_mul]

/-- C6 amended: when every power plant row of a region carries the same
positive capacity, the capacity-weighted output equals the elementwise
arithmetic mean of the member series at every hour inside the [:8760]
truncation window applied before aggregation.  The original claim, stated
for the whole result, fails at the leap-year hours 8760-8783, where the
output is 0 regardless of the data. -/
theorem C6_equal_weights_mean (pwr : Nat → Series) (idxLen : Nat)
    (pp : List PPRow) (cat reg : String) (i : Nat) (c : ℚ)
    (hne : ppIds pp cat reg ≠ [])
    (hrows : ∀ x ∈ ppRows pp cat reg, x.capacity = c) (hc : 0 < c)
    (hlen : ∀ cid ∈ ppIds pp cat reg, (pwr cid).length = idxLen)
    (hi : i < idxLen) (hi8 : i < 8760) :
    ∃ out, aggregateRegionCol pwr idxLen pp cat reg = some out ∧
      out.getD i none = some ((((ppIds pp cat reg).map (fun cid =>
        (pwr cid).getD i 0)).sum) / (((ppIds pp cat reg).length : ℚ))) := by
  have hlpos : 0 < (ppRows pp cat reg).length := by
    have h1 := List.length_pos.mpr hne
    simpa [ppIds] using h1
  have htot : totalCap pp cat reg ≠ 0 := by
    rw [totalCap_const pp cat reg c hrows]
    have h2 : (0 : ℚ) < ((ppRows pp cat reg).length : ℚ) := by
      exact_mod_cast hlpos
    exact ne_of_gt (mul_pos h2 hc)
  obtain ⟨out, h1, h2⟩ :=
    aggregateRegionCol_getD pwr idxLen pp cat reg i hne hlen hi hi8 htot
  refine ⟨out, h1, ?_⟩
  rw [h2]
  have hnum : ((ppIds pp cat reg).map (fun cid =>
      (pwr cid).getD i 0 * capacityOf pp cat reg cid)).sum
      = (((ppIds pp cat reg).map (fun cid => (pwr cid).getD i 0)).sum) * c := by
    rw [List.map_congr_left (fun cid hcid => by
      rw [capacityOf_const pp cat reg c hrows cid hcid])]
    exact List.sum_map_mul_right _ _ _
  have hden : totalCap pp cat reg = (((ppIds pp cat reg).length : ℚ)) * c := by
    rw [totalCap_const pp cat reg c hrows]
    have h3 : (ppIds pp cat reg).length = (ppRows pp cat reg).length := by
      simp [ppIds]
    rw [h3]
  rw [hnum, hden, mul_div_mul_right _ _ (ne_of_gt hc)]

/-- Witness for C6: equal capacities 2 and 2 with one-hour series 1 and 3
give the arithmetic mean 2. -/
theorem C6_equal_weights_mean_witness :
    ∃ out, aggregateRegionCol pwrEq 1 ppEq "w" "r" = some out ∧
      out.getD 0 none = some 2 := by
  obtain ⟨out, h1, h2⟩ := C6_equal_weights_mean pwrEq 1 ppEq "w" "r" 0 2
    (by decide)
    (by intro x hx; simp [ppRows, ppEq] at hx; rcases hx with h | h <;> simp [h])
    (by norm_num) (by decide) (by decide) (by decide)
  refine ⟨out, h1, ?_⟩
  rw [h2]
  norm_num [ppIds, ppRows, ppEq, pwrEq]

/-- C4: for the leap year 2016 the reference index of the store has 8784
hours and so does the output column, but the source slices every member
series to its first 8760 points instead of the 8784 admissible ones
(get_average_wind_speed truncates leap-aware, the feed-in aggregation does
not): hour 8760 of the output receives 0, a sum over no data divided by
the capacity, where the constant unit series with capacity 2 yields 1 at
every properly aggregated hour. -/
theorem C4_leap_year_truncated_to_8760 :
    hoursInYear 2016 = 8784 ∧
    truncateToYear 2016 (List.replicate 8790 1) = List.replicate 8784 1 ∧
    (∃ out, aggregateRegionCol (fun _ => List.replicate 8784 (1 : ℚ)) 8784
        ppLeap "w" "r" = some out ∧
      out.length = 8784 ∧ out.getD 0 none = some 1 ∧
      out.getD 8760 none = some 0) := by
  refine ⟨by decide, ?_, ?_⟩
  · unfold truncateToYear
    rw [List.length_replicate, if_pos (by decide), List.take_replicate]
    congr 1
  · have hne : ppIds ppLeap "w" "r" ≠ [] := by decide
    have hids : ppIds ppLeap "w" "r" = [1] := by decide
    have hcap : capacityOf ppLeap "w" "r" 1 = 2 := by decide
    have htot : totalCap ppLeap "w" "r" = 2 := by
      simp [totalCap, ppRows, ppLeap]
    refine ⟨_, aggregateRegionCol_eq _ 8784 ppLeap "w" "r" hne, ?_, ?_, ?_⟩
    · rw [pandasDiv_length, pandasSumAxis1_length]
    · rw [pandasDiv_getD _ _ _ (by rw [pandasSumAxis1_length]; norm_num)
          (by rw [htot]; norm_num),
        pandasSumAxis1_getD _ _ _ (by norm_num), hids]
      simp only [List.map_cons, List.map_nil, List.sum_cons, List.sum_nil]
      rw [col_getD (List.replicate 8784 (1 : ℚ)) (capacityOf ppLeap "w" "r" 1) 0
        (by norm_num) (by rw [List.length_replicate]; norm_num)]
      rw [hcap, htot]
      rw [List.getD_eq_getElem (List.replicate 8784 (1 : ℚ)) 0
        (by rw [List.length_replicate]; norm_num), List.getElem_replicate]
      norm_num
    · rw [pandasDiv_getD _ _ _ (by rw [pandasSumAxis1_length]; norm_num)
          (by rw [htot]; norm_num),
        pandasSumAxis1_getD _ _ _ (by norm_num), hids]
      simp only [List.map_cons, List.map_nil, List.sum_cons, List.sum_nil]
      have hlen0 : (((List.replicate 8784 (1 : ℚ)).take 8760).map
          (fun v => v * capacityOf ppLeap "w" "r" 1)).length = 8760 := by
        rw [List.length_map, List.length_take, List.length_replicate]
        norm_num
      rw [List.getD_eq_default _ _ (le_of_eq hlen0), htot]
      norm_num

/-- Reading every index of a series through getD reproduces the series. -/
theorem range_map_getD (l : Series) :
    (List.range l.length).map (fun i => l.getD i 0) = l := by
  refine List.ext_getElem (by simp) ?_
  intro n h1 h2
  simp only [List.getElem_map, List.getElem_range]
  exact List.getD_eq_getElem l 0 h2

/-- The column sum of a single-column frame divided by one is the column
itself. -/
theorem dfSum1_single (l : Series) :
    (dfSum1 [l]).map (fun v => v / ((1 : ℚ))) = l := by
  unfold dfSum1
  simp only [List.headD_cons]
  unfold pandasSumAxis1
  rw [List.map_map]
  have h : ((fun v => v / (1 : ℚ)) ∘ fun i =>
      (([l].map (fun s => s.getD i 0)).sum)) = fun i => l.getD i 0 := by
    funext i
    simp
  rw [h]
  exact range_map_getD l

/-- The first component of a region loop row is the region itself. -/
theorem regionRow_fst (natural : String → List Nat)
    (fixPairs : List (String × Nat)) (weather : Nat → Series) (r : String) :
    (regionRow natural fixPairs weather r).1 = r := by
  simp only [regionRow]
  by_cases h : (natural r).length < 1
  · rw [if_pos h]
    cases hf : fixPairs.find? (fun p => p.1 == r) <;> simp
  · rw [if_neg h]

/-- A region with at least one natural point takes the mean branch. -/
theorem regionRow_natural (natural : String → List Nat)
    (fixPairs : List (String × Nat)) (weather : Nat → Series) (reg : String)
    (h : natural reg ≠ []) :
    regionRow natural fixPairs weather reg =
      (reg, (dfSum1 ((natural reg).map weather)).map
        (fun v => v / (((natural reg).length : ℚ)))) := by
  have hlen : ¬ (natural reg).length < 1 := by
    have h2 := List.length_pos.mpr h
    omega
  simp only [regionRow]
  rw [if_neg hlen]

/-- A region with exactly one natural point reads that point series
unchanged: the sum of one column divided by one. -/
theorem regionRow_single (natural : String → List Nat)
    (fixPairs : List (String × Nat)) (weather : Nat → Series) (reg : String)
    (c : Nat) (hnat : natural reg = [c]) :
    regionRow natural fixPairs weather reg = (reg, weather c) := by
  rw [regionRow_natural natural fixPairs weather reg (by rw [hnat]; simp)]
  rw [hnat]
  have h1 : (([c] : List Nat).length : ℚ) = 1 := by norm_num
  rw [List.map_cons, List.map_nil, h1, dfSum1_single]

/-- The fix loop fails whenever some region of its list has no intersecting
grid polygon. -/
theorem buildFix_error (gridPolys : List Nat) (inter : Nat → String → Bool)
    (l : List String) (r : String) (hr : r ∈ l)
    (hfail : gridPolys.filter (fun g => inter g r) = []) :
    ∃ e, buildFix gridPolys inter l = Except.error e := by
  induction l with
  | nil => cases hr
  | cons a l ih =>
    by_cases hra : r = a
    · subst hra
      exact ⟨"IndexError: no grid polygon intersects " ++ r,
        by simp only [buildFix, hfail]⟩
    · have hrl : r ∈ l := by
        rcases List.mem_cons.mp hr with h | h
        · exact absurd h hra
        · exact h
      cases hfa : gridPolys.filter (fun g => inter g a) with
      | nil => exact ⟨"IndexError: no grid polygon intersects " ++ a,
          by simp only [buildFix, hfa]⟩
      | cons g gs =>
        obtain ⟨e, he⟩ := ih hrl
        refine ⟨e, ?_⟩
        simp only [buildFix, hfa, he]

/-- A successful fix loop returns one pair per processed region, keyed in
order, each carrying the first intersecting grid polygon. -/
theorem buildFix_ok (gridPolys : List Nat) (inter : Nat → String → Bool)
    (l : List String) (ps : List (String × Nat))
    (h : buildFix gridPolys inter l = Except.ok ps) :
    ps.map Prod.fst = l ∧
      ∀ p ∈ ps, (gridPolys.filter (fun g => inter g p.1)).head? = some p.2 := by
  induction l generalizing ps with
  | nil =>
    simp only [buildFix, Except.ok.injEq] at h
    subst h
    simp
  | cons a l ih =>
    cases hfa : gridPolys.filter (fun g => inter g a) with
    | nil =>
      simp only [buildFix, hfa] at h
      exact absurd h (by simp)
    | cons g gs =>
      cases hb : buildFix gridPolys inter l with
      | error e =>
        simp only [buildFix, hfa, hb] at h
        exact absurd h (by simp)
      | ok qs =>
        simp only [buildFix, hfa, hb, Except.ok.injEq] at h
        subst h
        obtain ⟨hk, hh⟩ := ih qs hb
        constructor
        · simp [hk]
        · intro p hp
          rcases List.mem_cons.mp hp with h3 | h3
          · subst h3
            simp [hfa]
          · exact hh p h3

/-- A successful spatial average run is exactly the region loop over the
fix table built for the uncovered regions. -/
theorem spatial_average_weather_ok (regions : List String)
    (natural : String → List Nat) (gridPolys : List Nat)
    (inter : Nat → String → Bool) (weather : Nat → Series)
    (rows : List (String × Series))
    (hok : spatial_average_weather regions natural gridPolys inter weather
      = Except.ok rows) :
    ∃ fixPairs,
      buildFix gridPolys inter (regions.filter (fun r => (natural r).isEmpty))
        = Except.ok fixPairs ∧
      rows = regions.map (regionRow natural fixPairs weather) := by
  unfold spatial_average_weather at hok
  cases hb : buildFix gridPolys inter
      (regions.filter (fun r => (natural r).isEmpty)) with
  | error e =>
    rw [hb] at hok
    simp at hok
  | ok fixPairs =>
    rw [hb] at hok
    simp only [Except.ok.injEq] at hok
    exact ⟨fixPairs, rfl, hok.symm⟩

/-- C5: arithmetic-mean aggregation over a region with exactly one assigned
grid point returns that point series exactly. -/
theorem C5_single_point_identity (regions : List String)
    (natural : String → List Nat) (gridPolys : List Nat)
    (inter : Nat → String → Bool) (weather : Nat → Series)
    (rows : List (String × Series)) (reg : String) (c : Nat)
    (hok : spatial_average_weather regions natural gridPolys inter weather
      = Except.ok rows)
    (hreg : reg ∈ regions) (hnat : natural reg = [c]) :
    (reg, weather c) ∈ rows := by
  obtain ⟨fixPairs, hb, hrows⟩ :=
    spatial_average_weather_ok regions natural gridPolys inter weather rows hok
  subst hrows
  exact List.mem_map.mpr ⟨reg, hreg,
    regionRow_single natural fixPairs weather reg c hnat⟩

/-- Witness for C5: a run with one region holding exactly one grid point
returns that point series unchanged. -/
theorem C5_single_point_identity_witness :
    ("a", weatherC5 5) ∈ [("a", ([3] : Series))] := by
  refine C5_single_point_identity ["a"] naturalC5 [] (fun _ _ => false)
    weatherC5 [("a", [3])] "a" 5 ?_ (by simp) (by decide)
  have hmiss : (["a"].filter (fun r => (naturalC5 r).isEmpty)) = [] := by decide
  have hrowa : regionRow naturalC5 [] weatherC5 "a" = ("a", [3]) := by
    rw [regionRow_single naturalC5 [] weatherC5 "a" 5 (by decide)]
    rfl
  unfold spatial_average_weather
  rw [hmiss]
  simp only [buildFix, List.map_cons, List.map_nil, hrowa]

/-- C2: every requested region appears in the output of the region loop; a
region with naturally assigned points gets the mean of its member series;
a region with no natural point is served by exactly one fallback point,
the first grid polygon intersecting its representative point, whose series
is read unweighted; and when no polygon intersects an uncovered region,
the fix loop raises an IndexError, a hard failure rather than a silent
skip. -/
theorem C2_region_coverage (regions : List String)
    (natural : String → List Nat) (gridPolys : List Nat)
    (inter : Nat → String → Bool) (weather : Nat → Series) :
    (∀ rows, spatial_average_weather regions natural gridPolys inter weather
        = Except.ok rows →
      rows.map Prod.fst = regions ∧
      (∀ reg, reg ∈ regions → natural reg ≠ [] →
        (reg, (dfSum1 ((natural reg).map weather)).map
          (fun v => v / (((natural reg).length : ℚ)))) ∈ rows) ∧
      (∀ reg g rest, reg ∈ regions → natural reg = [] →
        gridPolys.filter (fun p => inter p reg) = g :: rest →
        (reg, weather g) ∈ rows)) ∧
    (∀ reg, reg ∈ regions → natural reg = [] →
      gridPolys.filter (fun p => inter p reg) = [] →
      ∃ e, spatial_average_weather regions natural gridPolys inter weather
        = Except.error e) := by
  constructor
  · intro rows hok
    obtain ⟨fixPairs, hb, hrows⟩ :=
      spatial_average_weather_ok regions natural gridPolys inter weather rows hok
    subst hrows
    refine ⟨?_, ?_, ?_⟩
    · rw [List.map_map]
      have h4 : (Prod.fst ∘ regionRow natural fixPairs weather) = id := by
        funext r
        exact regionRow_fst natural fixPairs weather r
      rw [h4, List.map_id]
    · intro reg hreg hnat
      exact List.mem_map.mpr ⟨reg, hreg,
        regionRow_natural natural fixPairs weather reg hnat⟩
    · intro reg g rest hreg hnat hfilter
      have hmem : reg ∈ regions.filter (fun r => (natural r).isEmpty) :=
        List.mem_filter.mpr ⟨hreg, by simp [hnat]⟩
      obtain ⟨hkeys, hheads⟩ := buildFix_ok gridPolys inter _ fixPairs hb
      have hmemk : reg ∈ fixPairs.map Prod.fst := by
        rw [hkeys]
        exact hmem
      obtain ⟨p, hpmem, hpid⟩ := List.mem_map.mp hmemk
      have hfs : (fixPairs.find? (fun q => q.1 == reg)).isSome := by
        refine List.find?_isSome.mpr ⟨p, hpmem, ?_⟩
        simp [hpid]
      obtain ⟨q, hq⟩ := Option.isSome_iff_exists.mp hfs
      have hq1 : q.1 = reg := by
        have h5 := List.find?_some hq
        simpa using h5
      have hqmem := List.mem_of_find?_eq_some hq
      have hqh := hheads q hqmem
      rw [hq1, hfilter] at hqh
      have hq2 : q.2 = g := by
        simp only [List.head?_cons, Option.some.injEq] at hqh
        exact hqh.symm
      have hrow : regionRow natural fixPairs weather reg = (reg, weather g) := by
        simp only [regionRow, hnat, List.length_nil]
        rw [if_pos (by norm_num), hq]
        simp [hq2]
      exact List.mem_map.mpr ⟨reg, hreg, hrow⟩
  · intro reg hreg hnat hfail
    obtain ⟨e, he⟩ := buildFix_error gridPolys inter
      (regions.filter (fun r => (natural r).isEmpty)) reg
      (List.mem_filter.mpr ⟨hreg, by simp [hnat]⟩) hfail
    refine ⟨e, ?_⟩
    unfold spatial_average_weather
    rw [he]

/-- Witness for C2: region a keeps its natural point, region b receives
fallback point 3 (the first of the two intersecting polygons) read
unweighted, and a run over a region with no intersecting polygon fails. -/
theorem C2_region_coverage_witness :
    ("b", weatherW 3) ∈ rowsW ∧ rowsW.map Prod.fst = ["a", "b"] ∧
      (∃ e, spatial_average_weather ["c"] naturalW [] interW weatherW
        = Except.error e) := by
  have hok : spatial_average_weather ["a", "b"] naturalW [3, 4] interW weatherW
      = Except.ok rowsW := by
    have hmiss : (["a", "b"].filter (fun r => (naturalW r).isEmpty)) = ["b"] := by
      decide
    have hbf : buildFix [3, 4] interW ["b"] = Except.ok [("b", 3)] := rfl
    have hrowa : regionRow naturalW [("b", 3)] weatherW "a" = ("a", [99]) := by
      rw [regionRow_single naturalW [("b", 3)] weatherW "a" 7 (by decide)]
      rfl
    have hrowb : regionRow naturalW [("b", 3)] weatherW "b" = ("b", [30]) := rfl
    unfold spatial_average_weather
    rw [hmiss, hbf]
    simp only [List.map_cons, List.map_nil, hrowa, hrowb, rowsW]
  have h1 := (C2_region_coverage ["a", "b"] naturalW [3, 4] interW weatherW).1
    rowsW hok
  have h2 := (C2_region_coverage ["c"] naturalW [] interW weatherW).2
    "c" (by simp) (by simp [naturalW]) (by simp)
  exact ⟨h1.2.2 "b" 3 [4] (by simp) (by simp [naturalW]) (by simp [interW]),
    h1.1, h2⟩

/-- C7: the hydro and geothermal estimators give every hour of every region
column the identical constant full_load_hours / hours_in_year, with the
hydro full load hours derived as energy / capacity * 1000 and the
geothermal count taken from the configuration; the value does not depend
on the region. -/
theorem C7_scalar_estimators (pp : List CapRow) (hydroEnergy : Nat → ℚ)
    (geoFlh : ℚ) (regions : List String) (year : Nat) :
    aggregate_by_region_hydro pp hydroEnergy regions year
      = regions.map (fun r => (r, List.replicate (hoursInYear year)
          ((hydroEnergy year / hydroCapacitySum pp * 1000)
            / ((hoursInYear year : ℚ))))) ∧
    aggregate_by_region_geothermal geoFlh regions year
      = regions.map (fun r => (r, List.replicate (hoursInYear year)
          (geoFlh / ((hoursInYear year : ℚ))))) := by
  constructor
  · simp only [aggregate_by_region_hydro, dateRangeHours]
    refine List.map_congr_left ?_
    intro r hr
    rw [List.length_range, List.map_const', List.length_range]
  · simp only [aggregate_by_region_geothermal, dateRangeHours]
    refine List.map_congr_left ?_
    intro r hr
    rw [List.length_range, List.map_const', List.length_range]

/-- Hour 8760 of the leap-year unit store is inside the series. -/
theorem replicate_getD_8760 : (List.replicate 8784 (1 : ℚ)).getD 8760 0 = 1 := by
  rw [List.getD_eq_getElem (List.replicate 8784 (1 : ℚ)) 0
    (by rw [List.length_replicate]; norm_num)]
  exact List.getElem_replicate _ _

/-- For every region of the power plant table, hour 8760 of the leap-year
aggregation output is 0: each member column is cut to 8760 points by the
unconditional [:8760] slice, so the axis-1 sum at hour 8760 runs over no
data and the divided value is 0. -/
theorem agg_leap_tail_zero (pp : List PPRow) (cat reg : String)
    (hne : ppIds pp cat reg ≠ []) (htot : totalCap pp cat reg ≠ 0) :
    ∃ out, aggregateRegionCol pwrLeap 8784 pp cat reg = some out ∧
      out.getD 8760 none = some 0 := by
  refine ⟨_, aggregateRegionCol_eq _ 8784 pp cat reg hne, ?_⟩
  rw [pandasDiv_getD _ _ _ (by rw [pandasSumAxis1_length]; norm_num) htot,
    pandasSumAxis1_getD _ _ _ (by norm_num), List.map_map]
  have hmap : (ppIds pp cat reg).map ((fun s => s.getD 8760 0) ∘ fun cid =>
      ((pwrLeap cid).take 8760).map (fun v => v * capacityOf pp cat reg cid))
      = (ppIds pp cat reg).map (fun _ => (0 : ℚ)) := by
    refine List.map_congr_left ?_
    intro cid hcid
    simp only [Function.comp_apply, pwrLeap]
    apply List.getD_eq_default
    rw [List.length_map, List.length_take, List.length_replicate]
    norm_num
  rw [hmap, List.map_const', List.sum_replicate]
  simp

/-- C1 counterexample: with capacity 2 and the constant unit series over
the 8784-hour index of a leap year, hour 8760 of the output is 0, while
the capacity-weighted value claimed for each hour, (1 * 2) / 2, is 1. -/
theorem C1_counterexample_leap_tail :
    ∃ out, aggregateRegionCol pwrLeap 8784 ppLeap "w" "r" = some out ∧
      out.getD 8760 none = some 0 ∧
      ((pwrLeap 1).getD 8760 0 * capacityOf ppLeap "w" "r" 1)
          / totalCap ppLeap "w" "r" = 1 ∧
      (some (0 : ℚ)) ≠ some (1 : ℚ) := by
  obtain ⟨out, h1, h2⟩ := agg_leap_tail_zero ppLeap "w" "r" (by decide)
    (by norm_num [totalCap, ppRows, ppLeap])
  refine ⟨out, h1, h2, ?_, by simp⟩
  have hval : (pwrLeap 1).getD 8760 0 = 1 := replicate_getD_8760
  have hcap : capacityOf ppLeap "w" "r" 1 = 2 := by decide
  have htot : totalCap ppLeap "w" "r" = 2 := by
    norm_num [totalCap, ppRows, ppLeap]
  rw [hval, hcap, htot]
  norm_num

/-- C6 counterexample: with equal capacities 2 and 2 and constant unit
series over the 8784-hour index of a leap year, hour 8760 of the output is
0, while the elementwise arithmetic mean of the member series at that hour
is 1. -/
theorem C6_counterexample_leap_tail :
    ∃ out, aggregateRegionCol pwrLeap 8784 ppEq "w" "r" = some out ∧
      out.getD 8760 none = some 0 ∧
      (((ppIds ppEq "w" "r").map (fun cid => (pwrLeap cid).getD 8760 0)).sum)
          / (((ppIds ppEq "w" "r").length : ℚ)) = 1 ∧
      (some (0 : ℚ)) ≠ some (1 : ℚ) := by
  obtain ⟨out, h1, h2⟩ := agg_leap_tail_zero ppEq "w" "r" (by decide)
    (by norm_num [totalCap, ppRows, ppEq])
  refine ⟨out, h1, h2, ?_, by simp⟩
  have hids : ppIds ppEq "w" "r" = [1, 2] := by decide
  have hval : ∀ cid, (pwrLeap cid).getD 8760 0 = 1 :=
    fun _ => replicate_getD_8760
  rw [hids, List.map_cons, List.map_cons, List.map_nil, hval 1, hval 2]
  norm_num
